import Mathlib

/-!
Verification of the lottery-bet aggregation server (tp0-base, server side).

The development shallowly embeds the Python sources:
  - byte-level codec            (src/server/common/messages.py, socket layer)
  - shared lottery monitor      (src/server/common/lottery_monitor.py)
  - per-session dispatch loop   (src/server/common/server.py)
  - configuration and main      (src/server/main.py)

Machine integers are modelled as Nat with explicit bounds; byte strings as
List Nat (one Nat per byte); strings are represented by their UTF-8 byte
sequences.  Fallible code returns Option.  All monitor mutation in the source
runs under one exclusive lock, so concurrent histories are modelled as
sequences of atomic operations on the monitor state.
-/

/-! ## Byte-level primitives

Big-endian integer encoding, mirroring Python int.to_bytes(w, "big") and
int.from_bytes(bytes, "big"). -/

/-- Big-endian encoding of n into exactly w bytes (int.to_bytes(w, "big")). -/
def toBytesBE : Nat → Nat → List Nat
  | 0, _ => []
  | w + 1, n => toBytesBE w (n / 256) ++ [n % 256]

/-- Big-endian decoding of a byte list (int.from_bytes(bytes, "big")). -/
def fromBytesBE (l : List Nat) : Nat :=
  l.foldl (fun acc b => acc * 256 + b) 0

theorem toBytesBE_length (w n : Nat) : (toBytesBE w n).length = w := by
  induction w generalizing n with
  | zero => rfl
  | succ w ih => simp [toBytesBE, ih]

theorem toBytesBE_foldl (w n a : Nat) (h : n < 256 ^ w) :
    (toBytesBE w n).foldl (fun acc b => acc * 256 + b) a = a * 256 ^ w + n := by
  induction w generalizing n a with
  | zero =>
      interval_cases n
      simp [toBytesBE]
  | succ w ih =>
      have hdiv : n / 256 < 256 ^ w := by
        rw [Nat.div_lt_iff_lt_mul (by norm_num : 0 < 256)]
        calc n < 256 ^ (w + 1) := h
        _ = 256 ^ w * 256 := by ring
      simp only [toBytesBE, List.foldl_append, List.foldl_cons, List.foldl_nil, ih _ _ hdiv]
      have : n % 256 + 256 * (n / 256) = n := Nat.mod_add_div n 256
      ring_nf
      omega

theorem fromBytesBE_toBytesBE (w n : Nat) (h : n < 256 ^ w) :
    fromBytesBE (toBytesBE w n) = n := by
  have := toBytesBE_foldl w n 0 h
  simpa [fromBytesBE] using this

/-- Read exactly n bytes from the front of a stream; models __receive_all,
which raises ConnectionError when the stream cannot supply n bytes. -/
def takeExact (n : Nat) (l : List Nat) : Option (List Nat × List Nat) :=
  if n ≤ l.length then some (l.take n, l.drop n) else none

theorem takeExact_append (xs rest : List Nat) :
    takeExact xs.length (xs ++ rest) = some (xs, rest) := by
  simp [takeExact, List.take_left, List.drop_left]

/-- Read a w-byte big-endian unsigned integer from the stream. -/
def readNat (w : Nat) (l : List Nat) : Option (Nat × List Nat) :=
  (takeExact w l).map fun p => (fromBytesBE p.1, p.2)

theorem readNat_encode (w n : Nat) (rest : List Nat) (h : n < 256 ^ w) :
    readNat w (toBytesBE w n ++ rest) = some (n, rest) := by
  have ht := takeExact_append (toBytesBE w n) rest
  rw [toBytesBE_length w n] at ht
  simp [readNat, ht, fromBytesBE_toBytesBE w n h]

/-- 2-byte big-endian encoding (SIZEOF_UINT16 fields). -/
def encU16 (n : Nat) : List Nat := toBytesBE 2 n

/-- 4-byte big-endian encoding (SIZEOF_UINT32 fields). -/
def encU32 (n : Nat) : List Nat := toBytesBE 4 n

theorem readNat_encU16 (n : Nat) (rest : List Nat) (h : n < 2 ^ 16) :
    readNat 2 (encU16 n ++ rest) = some (n, rest) :=
  readNat_encode 2 n rest (by norm_num at h ⊢; omega)

theorem readNat_encU32 (n : Nat) (rest : List Nat) (h : n < 2 ^ 32) :
    readNat 4 (encU32 n ++ rest) = some (n, rest) :=
  readNat_encode 4 n rest (by norm_num at h ⊢; omega)

/-- Signed 8-byte big-endian encoding: two's complement, as produced by
Python int.to_bytes(8, "big", signed=True). -/
def encInt64 (i : Int) : List Nat := toBytesBE 8 (i.emod (2 ^ 64)).toNat

/-- Read a signed 8-byte big-endian integer (two's complement). -/
def readInt64 (l : List Nat) : Option (Int × List Nat) :=
  (readNat 8 l).map fun p =>
    (if p.1 < 2 ^ 63 then (p.1 : Int) else (p.1 : Int) - 2 ^ 64, p.2)

theorem readInt64_encode (i : Int) (rest : List Nat)
    (hlo : -(2 ^ 63) ≤ i) (hhi : i < 2 ^ 63) :
    readInt64 (encInt64 i ++ rest) = some (i, rest) := by
  have hmod_lt : i.emod (2 ^ 64) < 2 ^ 64 := Int.emod_lt_of_pos i (by norm_num)
  have hmod_nonneg : 0 ≤ i.emod (2 ^ 64) := Int.emod_nonneg i (by norm_num)
  have hn_lt : (i.emod (2 ^ 64)).toNat < 256 ^ 8 := by
    have : (256 : Nat) ^ 8 = 2 ^ 64 := by norm_num
    omega
  have hread := readNat_encode 8 (i.emod (2 ^ 64)).toNat rest hn_lt
  simp only [readInt64, encInt64, hread, Option.map_some, Option.map_some']
  by_cases hpos : 0 ≤ i
  · have hv : i.emod (2 ^ 64) = i := Int.emod_eq_of_lt hpos (by omega)
    rw [hv]
    have hlt : i.toNat < 2 ^ 63 := by omega
    rw [if_pos hlt]
    simp only [Option.some.injEq, Prod.mk.injEq]
    exact ⟨by omega, trivial⟩
  · have hv : i.emod (2 ^ 64) = i + 2 ^ 64 := by
      have h1 : (i + 2 ^ 64).emod (2 ^ 64) = i.emod (2 ^ 64) := by
        have h2 := Int.add_mul_emod_self_left (a := i) (b := 2 ^ 64) (c := 1)
        rw [mul_one] at h2
        exact h2
      rw [← h1]
      exact Int.emod_eq_of_lt (by omega) (by omega)
    rw [hv]
    have hlt : ¬ (i + 2 ^ 64).toNat < 2 ^ 63 := by omega
    rw [if_neg hlt]
    simp only [Option.some.injEq, Prod.mk.injEq]
    exact ⟨by omega, trivial⟩

/-! ## Protocol codec

Message kinds and encoders follow src/server/common/messages.py.  Message
type ids 1-4 are the constants MSG_TYPE_REGISTER_BETS, MSG_TYPE_REGISTER_BET_OK,
MSG_TYPE_REGISTER_BET_FAILED, MSG_TYPE_ACK of that file; ids 5-7
(AllBetsSent, RequestWinners, InformWinners) and the message decoder are
modelled from the spec (see the doc comments below).  String fields carry
their UTF-8 byte sequences. -/

def MSG_TYPE_REGISTER_BETS : Nat := 1

def MSG_TYPE_REGISTER_BET_OK : Nat := 2

def MSG_TYPE_REGISTER_BET_FAILED : Nat := 3

def MSG_TYPE_ACK : Nat := 4

/-- Modelled from the spec: message id 5, AllBetsSent (absent from
src/server/common/messages.py; imported by src/server/common/server.py). -/
def MSG_TYPE_ALL_BETS_SENT : Nat := 5

/-- Modelled from the spec: message id 6, RequestWinners (absent from
src/server/common/messages.py; imported by src/server/common/server.py). -/
def MSG_TYPE_REQUEST_WINNERS : Nat := 6

/-- Modelled from the spec: message id 7, InformWinners (absent from
src/server/common/messages.py; sent by Protocol.inform_winners). -/
def MSG_TYPE_INFORM_WINNERS : Nat := 7

def FAILURE_UNKNOWN_MESSAGE : Nat := 1

def FAILURE_COULD_NOT_PROCESS_BET : Nat := 2

/-- Protocol-level bet carried inside RegisterBets (class StandardBet).
The name and surname fields hold the UTF-8 bytes of the Python strings;
birthdate is the signed 64-bit Unix timestamp. -/
structure StandardBet where
  agency : Nat
  name : List Nat
  surname : List Nat
  dni : Nat
  birthdate : Int
  number : Nat
deriving DecidableEq, Repr

/-- The protocol messages of the codec (classes of messages.py plus the
three kinds the spec tabulates in section 4.2). -/
inductive Message where
  | registerBets (bets : List StandardBet)
  | registerBetOk
  | registerBetFailed (error_code : Nat)
  | ack
  | allBetsSent
  | requestWinners
  | informWinners (winners : List Nat)
deriving DecidableEq, Repr

/-- Body of StandardBet.to_bytes before the length prefix:
[u32 agency][u32 name_len][name][u32 surname_len][surname][u32 dni]
[i64 birthdate][u32 number]. -/
def StandardBet.body_bytes (b : StandardBet) : List Nat :=
  encU32 b.agency ++ encU32 b.name.length ++ b.name ++
  encU32 b.surname.length ++ b.surname ++ encU32 b.dni ++
  encInt64 b.birthdate ++ encU32 b.number

/-- StandardBet.to_bytes: 4-byte body length, then the body. -/
def StandardBet.to_bytes (b : StandardBet) : List Nat :=
  encU32 b.body_bytes.length ++ b.body_bytes

/-- Message.to_bytes of each kind.  Kinds 1-4 mirror messages.py
(RegisterBets: u16 type, u32 count, then the bets; RegisterBetOk and Ack:
bare u16 type; RegisterBetFailed: u16 type, u32 payload length, u16 error
code).  Kinds 5-7 are modelled from the spec: AllBetsSent and
RequestWinners have no payload; InformWinners carries a u32 count then
count u32 document numbers. -/
def Message.to_bytes : Message → List Nat
  | .registerBets bets =>
      encU16 MSG_TYPE_REGISTER_BETS ++ encU32 bets.length ++
      (bets.map StandardBet.to_bytes).flatten
  | .registerBetOk => encU16 MSG_TYPE_REGISTER_BET_OK
  | .registerBetFailed c =>
      encU16 MSG_TYPE_REGISTER_BET_FAILED ++ encU32 (encU16 c).length ++ encU16 c
  | .ack => encU16 MSG_TYPE_ACK
  | .allBetsSent => encU16 MSG_TYPE_ALL_BETS_SENT
  | .requestWinners => encU16 MSG_TYPE_REQUEST_WINNERS
  | .informWinners ws =>
      encU16 MSG_TYPE_INFORM_WINNERS ++ encU32 ws.length ++ (ws.map encU32).flatten

/-- Decode one bet body (Socket.__decode_register_bet field order). -/
def decodeBetBody (l : List Nat) : Option (StandardBet × List Nat) :=
  (readNat 4 l).bind fun p1 =>
  (readNat 4 p1.2).bind fun p2 =>
  (takeExact p2.1 p2.2).bind fun p3 =>
  (readNat 4 p3.2).bind fun p4 =>
  (takeExact p4.1 p4.2).bind fun p5 =>
  (readNat 4 p5.2).bind fun p6 =>
  (readInt64 p6.2).bind fun p7 =>
  (readNat 4 p7.2).bind fun p8 =>
  some (⟨p1.1, p3.1, p5.1, p6.1, p7.1, p8.1⟩, p8.2)

/-- Decode k length-prefixed bets; each bet body must consume its declared
length exactly (the spec: decoders never over-read or under-read). -/
def decodeBets : Nat → List Nat → Option (List StandardBet × List Nat)
  | 0, l => some ([], l)
  | k + 1, l =>
      (readNat 4 l).bind fun p1 =>
      (takeExact p1.1 p1.2).bind fun p2 =>
      match decodeBetBody p2.1 with
      | some (b, []) => (decodeBets k p2.2).map fun r => (b :: r.1, r.2)
      | _ => none

/-- Decode k 4-byte document numbers (InformWinners payload). -/
def decodeDnis : Nat → List Nat → Option (List Nat × List Nat)
  | 0, l => some ([], l)
  | k + 1, l =>
      (readNat 4 l).bind fun p1 =>
      (decodeDnis k p1.2).map fun r => (p1.1 :: r.1, r.2)

/-- Modelled from the spec: the current-iteration message decoder
(Socket.__decode_message) is absent from src/ — src/server/common/socket.py
is an earlier protocol iteration incompatible with messages.py.  Per
section 4.2: read the 2-byte msg_type, then dispatch to the per-kind
decoder, which reads only its declared payload; an unknown msg_type fails
(the source raises ValueError there). -/
def decodeMessage (l : List Nat) : Option (Message × List Nat) :=
  (readNat 2 l).bind fun pt =>
  let t := pt.1
  let l1 := pt.2
  if t = MSG_TYPE_REGISTER_BETS then
    (readNat 4 l1).bind fun pc =>
    (decodeBets pc.1 pc.2).map fun r => (Message.registerBets r.1, r.2)
  else if t = MSG_TYPE_REGISTER_BET_OK then
    some (Message.registerBetOk, l1)
  else if t = MSG_TYPE_REGISTER_BET_FAILED then
    (readNat 4 l1).bind fun _pl =>
    (readNat 2 _pl.2).map fun pe => (Message.registerBetFailed pe.1, pe.2)
  else if t = MSG_TYPE_ACK then
    some (Message.ack, l1)
  else if t = MSG_TYPE_ALL_BETS_SENT then
    some (Message.allBetsSent, l1)
  else if t = MSG_TYPE_REQUEST_WINNERS then
    some (Message.requestWinners, l1)
  else if t = MSG_TYPE_INFORM_WINNERS then
    (readNat 4 l1).bind fun pc =>
    (decodeDnis pc.1 pc.2).map fun r => (Message.informWinners r.1, r.2)
  else
    none

/-- Field bounds under which a bet is representable on the wire. -/
def wfBet (b : StandardBet) : Prop :=
  b.agency < 2 ^ 32 ∧ 28 + b.name.length + b.surname.length < 2 ^ 32 ∧
  b.dni < 2 ^ 32 ∧ -(2 ^ 63) ≤ b.birthdate ∧ b.birthdate < 2 ^ 63 ∧
  b.number < 2 ^ 32

instance (b : StandardBet) : Decidable (wfBet b) := by
  unfold wfBet
  infer_instance

/-- Field bounds under which a message is representable on the wire. -/
def wfMessage : Message → Prop
  | .registerBets bets => bets.length < 2 ^ 32 ∧ ∀ b ∈ bets, wfBet b
  | .registerBetFailed c => c < 2 ^ 16
  | .informWinners ws => ws.length < 2 ^ 32 ∧ ∀ d ∈ ws, d < 2 ^ 32
  | _ => True

instance (m : Message) : Decidable (wfMessage m) := by
  cases m <;> simp only [wfMessage] <;> infer_instance

theorem body_bytes_length (b : StandardBet) :
    b.body_bytes.length = 28 + b.name.length + b.surname.length := by
  simp only [StandardBet.body_bytes, encU32, encInt64, List.length_append,
    toBytesBE_length]
  omega

theorem decodeBetBody_encode (b : StandardBet) (rest : List Nat) (h : wfBet b) :
    decodeBetBody (b.body_bytes ++ rest) = some (b, rest) := by
  obtain ⟨h1, h2, h3, h4, h5, h6⟩ := h
  have hname : b.name.length < 2 ^ 32 := by omega
  have hsur : b.surname.length < 2 ^ 32 := by omega
  simp only [decodeBetBody, StandardBet.body_bytes, List.append_assoc,
    readNat_encU32 _ _ h1, readNat_encU32 _ _ hname, takeExact_append,
    readNat_encU32 _ _ hsur, readNat_encU32 _ _ h3,
    readInt64_encode _ _ h4 h5, readNat_encU32 _ _ h6, Option.some_bind]

theorem decodeBets_encode (bets : List StandardBet) (rest : List Nat)
    (h : ∀ b ∈ bets, wfBet b) :
    decodeBets bets.length ((bets.map StandardBet.to_bytes).flatten ++ rest) =
      some (bets, rest) := by
  induction bets with
  | nil => simp [decodeBets]
  | cons b bs ih =>
      have hb : wfBet b := h b (List.mem_cons_self b bs)
      have hbs : ∀ x ∈ bs, wfBet x := fun x hx => h x (List.mem_cons_of_mem b hx)
      have hlen : b.body_bytes.length < 2 ^ 32 := by
        rw [body_bytes_length]
        exact hb.2.1
      have hbody : decodeBetBody b.body_bytes = some (b, []) := by
        have := decodeBetBody_encode b [] hb
        rwa [List.append_nil] at this
      simp only [List.length_cons, List.map_cons, List.flatten_cons, decodeBets,
        StandardBet.to_bytes, List.append_assoc, readNat_encU32 _ _ hlen,
        Option.some_bind, takeExact_append, hbody, ih hbs, Option.map_some']

theorem decodeDnis_encode (ws : List Nat) (rest : List Nat)
    (h : ∀ d ∈ ws, d < 2 ^ 32) :
    decodeDnis ws.length ((ws.map encU32).flatten ++ rest) = some (ws, rest) := by
  induction ws with
  | nil => simp [decodeDnis]
  | cons d ds ih =>
      have hd : d < 2 ^ 32 := h d (List.mem_cons_self d ds)
      have hds : ∀ x ∈ ds, x < 2 ^ 32 := fun x hx => h x (List.mem_cons_of_mem d hx)
      simp only [List.length_cons, List.map_cons, List.flatten_cons, decodeDnis,
        List.append_assoc, readNat_encU32 _ _ hd, Option.some_bind, ih hds,
        Option.map_some']

theorem decodeMessage_to_bytes_append (m : Message) (rest : List Nat)
    (h : wfMessage m) :
    decodeMessage (m.to_bytes ++ rest) = some (m, rest) := by
  cases m with
  | registerBets bets =>
      obtain ⟨hc, hb⟩ := h
      simp only [Message.to_bytes, decodeMessage, MSG_TYPE_REGISTER_BETS,
        MSG_TYPE_REGISTER_BET_OK, MSG_TYPE_REGISTER_BET_FAILED, MSG_TYPE_ACK,
        MSG_TYPE_ALL_BETS_SENT, MSG_TYPE_REQUEST_WINNERS, MSG_TYPE_INFORM_WINNERS,
        List.append_assoc, readNat_encU16 _ _ (by norm_num : (1 : Nat) < 2 ^ 16),
        Option.some_bind]
      simp [readNat_encU32 _ _ hc, decodeBets_encode _ _ hb]
  | registerBetOk =>
      simp only [Message.to_bytes, decodeMessage, MSG_TYPE_REGISTER_BETS,
        MSG_TYPE_REGISTER_BET_OK,
        readNat_encU16 _ _ (by norm_num : (2 : Nat) < 2 ^ 16), Option.some_bind]
      norm_num
  | registerBetFailed c =>
      have hc : c < 2 ^ 16 := h
      have hlen : (encU16 c).length < 2 ^ 32 := by
        simp [encU16, toBytesBE_length]
      simp only [Message.to_bytes, decodeMessage, MSG_TYPE_REGISTER_BETS,
        MSG_TYPE_REGISTER_BET_OK, MSG_TYPE_REGISTER_BET_FAILED,
        List.append_assoc, readNat_encU16 _ _ (by norm_num : (3 : Nat) < 2 ^ 16),
        Option.some_bind]
      simp [readNat_encU32 _ _ hlen, readNat_encU16 _ _ hc]
  | ack =>
      simp only [Message.to_bytes, decodeMessage, MSG_TYPE_REGISTER_BETS,
        MSG_TYPE_REGISTER_BET_OK, MSG_TYPE_REGISTER_BET_FAILED, MSG_TYPE_ACK,
        readNat_encU16 _ _ (by norm_num : (4 : Nat) < 2 ^ 16), Option.some_bind]
      norm_num
  | allBetsSent =>
      simp only [Message.to_bytes, decodeMessage, MSG_TYPE_REGISTER_BETS,
        MSG_TYPE_REGISTER_BET_OK, MSG_TYPE_REGISTER_BET_FAILED, MSG_TYPE_ACK,
        MSG_TYPE_ALL_BETS_SENT,
        readNat_encU16 _ _ (by norm_num : (5 : Nat) < 2 ^ 16), Option.some_bind]
      norm_num
  | requestWinners =>
      simp only [Message.to_bytes, decodeMessage, MSG_TYPE_REGISTER_BETS,
        MSG_TYPE_REGISTER_BET_OK, MSG_TYPE_REGISTER_BET_FAILED, MSG_TYPE_ACK,
        MSG_TYPE_ALL_BETS_SENT, MSG_TYPE_REQUEST_WINNERS,
        readNat_encU16 _ _ (by norm_num : (6 : Nat) < 2 ^ 16), Option.some_bind]
      norm_num
  | informWinners ws =>
      obtain ⟨hc, hd⟩ := h
      simp only [Message.to_bytes, decodeMessage, MSG_TYPE_REGISTER_BETS,
        MSG_TYPE_REGISTER_BET_OK, MSG_TYPE_REGISTER_BET_FAILED, MSG_TYPE_ACK,
        MSG_TYPE_ALL_BETS_SENT, MSG_TYPE_REQUEST_WINNERS, MSG_TYPE_INFORM_WINNERS,
        List.append_assoc, readNat_encU16 _ _ (by norm_num : (7 : Nat) < 2 ^ 16),
        Option.some_bind]
      simp [readNat_encU32 _ _ hc, decodeDnis_encode _ _ hd]

/-- Claim C5: for every well-formed protocol message m of the kinds defined
by the codec, decoding the byte string produced by encoding m yields m again
bit-for-bit (with nothing left over); the per-kind framing the encoders
write is exactly the layout the decoder consumes. -/
theorem codec_roundtrip (m : Message) (h : wfMessage m) :
    decodeMessage m.to_bytes = some (m, []) := by
  have := decodeMessage_to_bytes_append m [] h
  rwa [List.append_nil] at this

/-- Witness for codec_roundtrip at a concrete RegisterBets message. -/
theorem codec_roundtrip_witness :
    wfMessage (Message.registerBets [⟨1, [65], [66, 67], 111, 0, 7777⟩]) ∧
    decodeMessage (Message.registerBets
        [⟨1, [65], [66, 67], 111, 0, 7777⟩]).to_bytes =
      some (Message.registerBets [⟨1, [65], [66, 67], 111, 0, 7777⟩], []) :=
  ⟨by decide, codec_roundtrip _ (by decide)⟩

/-! ## Lottery monitor

Embeds src/server/common/lottery_monitor.py.  Every mutating operation of
the source runs under the single exclusive monitor lock, so a concurrent
history of monitor calls is a sequence of atomic state transitions; the
only action outside the lock is setting the completion event, which touches
no other field.  Manager dicts are modelled as insertion-ordered
association lists with unique keys. -/

/-- Insertion-ordered dict update: overwrite in place, else append. -/
def dictSet {α : Type} (k : Nat) (v : α) : List (Nat × α) → List (Nat × α)
  | [] => [(k, v)]
  | (k', v') :: rest => if k' = k then (k, v) :: rest else (k', v') :: dictSet k v rest

/-- Dict lookup (dict.get, returning None when absent). -/
def dictGet {α : Type} (k : Nat) : List (Nat × α) → Option α
  | [] => none
  | (k', v') :: rest => if k' = k then some v' else dictGet k rest

theorem dictGet_dictSet_self {α : Type} (k : Nat) (v : α) (d : List (Nat × α)) :
    dictGet k (dictSet k v d) = some v := by
  induction d with
  | nil => simp [dictSet, dictGet]
  | cons kv rest ih =>
      obtain ⟨k', v'⟩ := kv
      by_cases hk : k' = k
      · simp [dictSet, dictGet, hk]
      · simp [dictSet, dictGet, hk, ih]

theorem dictGet_dictSet_other {α : Type} (k j : Nat) (v : α) (d : List (Nat × α))
    (h : j ≠ k) : dictGet j (dictSet k v d) = dictGet j d := by
  have h2 : k ≠ j := Ne.symm h
  induction d with
  | nil => simp [dictSet, dictGet, h2]
  | cons kv rest ih =>
      obtain ⟨k', v'⟩ := kv
      by_cases hk : k' = k
      · subst hk
        simp [dictSet, dictGet, h2]
      · simp [dictSet, dictGet, hk, ih]

/-- Domain bet record (common.utils Bet).  The lottery reads only the
agency and document fields (both converted with int() by the monitor);
the remaining fields ride along untouched. -/
structure Bet where
  agency : Nat
  first_name : List Nat
  last_name : List Nat
  document : Nat
  birthdate : List Nat
  number : Nat
deriving DecidableEq, Repr

/-- Shared state of class LotteryMonitor: readiness map, agency-id map,
flat winners list, per-agency winners dict, one-shot executed flag, and the
completion event. -/
structure MonitorState where
  readiness : List (Nat × Nat)
  agency_id_by_port : List (Nat × Nat)
  winners : List (Nat × Nat)
  winners_per_agency : List (Nat × List Nat)
  lottery_executed : Bool
  lottery_complete_event : Bool
deriving DecidableEq, Repr

/-- Monitor state at process start (LotteryMonitor.__init__). -/
def initMonitorState : MonitorState :=
  ⟨[], [], [], [], false, false⟩

/-- LotteryMonitor.set_readiness: unconditional write under the lock. -/
def set_readiness (s : MonitorState) (port state : Nat) : MonitorState :=
  { s with readiness := dictSet port state s.readiness }

/-- LotteryMonitor.get_readiness (None sentinel when absent). -/
def get_readiness (s : MonitorState) (port : Nat) : Option Nat :=
  dictGet port s.readiness

/-- LotteryMonitor.set_agency_id: unconditional write under the lock. -/
def set_agency_id (s : MonitorState) (port agencyId : Nat) : MonitorState :=
  { s with agency_id_by_port := dictSet port agencyId s.agency_id_by_port }

/-- LotteryMonitor.get_agency_id (None when absent). -/
def get_agency_id (s : MonitorState) (port : Nat) : Option Nat :=
  dictGet port s.agency_id_by_port

/-- LotteryMonitor.all_agencies_ready: all expected agencies connected and
none still in the sending state. -/
def all_agencies_ready (s : MonitorState) (max_agencies sending_state : Nat) : Bool :=
  if s.readiness.length < max_agencies then false
  else !(s.readiness.any fun kv => kv.2 == sending_state)

/-- One iteration of the winner-collection loop in execute_lottery: a
winning bet is appended to the flat winners list and to its agency's entry
of the per-agency dict (created empty first when absent). -/
def execute_lottery_step (has_won : Bet → Bool) (st : MonitorState) (bet : Bet) :
    MonitorState :=
  if has_won bet then
    { st with
      winners := st.winners ++ [(bet.agency, bet.document)],
      winners_per_agency :=
        dictSet bet.agency
          ((dictGet bet.agency st.winners_per_agency).getD [] ++ [bet.document])
          st.winners_per_agency }
  else st

/-- LotteryMonitor.execute_lottery.  load_bets and has_won are the external
bet-store collaborators, passed as parameters.  The executed flag is
checked and latched, and the winners computed, inside the lock; the
completion event is set after the lock is released. -/
def execute_lottery (load_bets : List Bet) (has_won : Bet → Bool)
    (s : MonitorState) : MonitorState × Bool :=
  if s.lottery_executed then (s, false)
  else
    let s1 := { s with lottery_executed := true }
    let s2 := load_bets.foldl (execute_lottery_step has_won) s1
    ({ s2 with lottery_complete_event := true }, true)

/-- LotteryMonitor.get_winners_for_agency: dict.get(agency, []). -/
def get_winners_for_agency (s : MonitorState) (agency : Nat) : List Nat :=
  (dictGet agency s.winners_per_agency).getD []

/-- LotteryMonitor.has_lottery_occurred: read of the executed flag. -/
def has_lottery_occurred (s : MonitorState) : Bool :=
  s.lottery_executed

/-- LotteryMonitor.is_lottery_complete: non-blocking probe of the event. -/
def is_lottery_complete (s : MonitorState) : Bool :=
  s.lottery_complete_event

/-- A sequence of n serialized execute_lottery calls, returning the final
state and the list of results in call order. -/
def run_lottery_calls (load_bets : List Bet) (has_won : Bet → Bool) :
    Nat → MonitorState → MonitorState × List Bool
  | 0, s => (s, [])
  | n + 1, s =>
      let r := execute_lottery load_bets has_won s
      let rest := run_lottery_calls load_bets has_won n r.1
      (rest.1, r.2 :: rest.2)

theorem execute_lottery_step_executed (has_won : Bet → Bool) (st : MonitorState)
    (bet : Bet) :
    (execute_lottery_step has_won st bet).lottery_executed = st.lottery_executed := by
  simp only [execute_lottery_step]
  split <;> rfl

theorem execute_lottery_fold_executed (has_won : Bet → Bool) (bets : List Bet)
    (st : MonitorState) :
    (bets.foldl (execute_lottery_step has_won) st).lottery_executed =
      st.lottery_executed := by
  induction bets generalizing st with
  | nil => rfl
  | cons b bs ih => rw [List.foldl_cons, ih, execute_lottery_step_executed]

theorem execute_lottery_latches (load_bets : List Bet) (has_won : Bet → Bool)
    (s : MonitorState) (h : s.lottery_executed = false) :
    (execute_lottery load_bets has_won s).1.lottery_executed = true := by
  simp only [execute_lottery, h, Bool.false_eq_true, if_false]
  exact execute_lottery_fold_executed has_won load_bets _

theorem execute_lottery_already (load_bets : List Bet) (has_won : Bet → Bool)
    (s : MonitorState) (h : s.lottery_executed = true) :
    execute_lottery load_bets has_won s = (s, false) := by
  simp [execute_lottery, h]

theorem run_lottery_calls_executed (load_bets : List Bet) (has_won : Bet → Bool)
    (n : Nat) (s : MonitorState) (h : s.lottery_executed = true) :
    run_lottery_calls load_bets has_won n s = (s, List.replicate n false) := by
  induction n with
  | zero => simp [run_lottery_calls]
  | succ n ih =>
      simp [run_lottery_calls, execute_lottery_already load_bets has_won s h, ih,
        List.replicate_succ]

/-- Claim C1: across any serialized sequence of execute_lottery calls in one
process lifetime (all mutation is under the single monitor lock), the first
call from the unlatched state returns true and every later call returns
false immediately, so at most one caller gets true — exactly one when at
least one call is made — and the winner computation mutates the state only
during that first call. -/
theorem execute_lottery_one_shot (load_bets : List Bet) (has_won : Bet → Bool)
    (s : MonitorState) (n : Nat) (h : s.lottery_executed = false) (hn : 1 ≤ n) :
    (run_lottery_calls load_bets has_won n s).2 =
      true :: List.replicate (n - 1) false ∧
    (run_lottery_calls load_bets has_won n s).1 =
      (execute_lottery load_bets has_won s).1 := by
  obtain ⟨m, rfl⟩ : ∃ m, n = m + 1 := ⟨n - 1, by omega⟩
  have hlatch := execute_lottery_latches load_bets has_won s h
  have hrest := run_lottery_calls_executed load_bets has_won m
    (execute_lottery load_bets has_won s).1 hlatch
  have hfirst : (execute_lottery load_bets has_won s).2 = true := by
    simp [execute_lottery, h]
  simp [run_lottery_calls, hrest, hfirst]

/-- Witness for execute_lottery_one_shot: three calls on the fresh monitor,
results true, false, false. -/
theorem execute_lottery_one_shot_witness :
    (initMonitorState.lottery_executed = false ∧ 1 ≤ 3) ∧
    ((run_lottery_calls [⟨1, [], [], 111, [], 7⟩] (fun b => b.document == 111)
        3 initMonitorState).2 = true :: List.replicate 2 false ∧
      (run_lottery_calls [⟨1, [], [], 111, [], 7⟩] (fun b => b.document == 111)
        3 initMonitorState).1 =
        (execute_lottery [⟨1, [], [], 111, [], 7⟩] (fun b => b.document == 111)
          initMonitorState).1) :=
  ⟨⟨by decide, by decide⟩,
    execute_lottery_one_shot _ _ initMonitorState 3 (by decide) (by decide)⟩

theorem execute_lottery_fold_wpa (has_won : Bet → Bool) (bets : List Bet)
    (st : MonitorState) (a : Nat) :
    (dictGet a (bets.foldl (execute_lottery_step has_won) st).winners_per_agency).getD [] =
      (dictGet a st.winners_per_agency).getD [] ++
        ((bets.filter has_won).filter (fun b => b.agency == a)).map Bet.document := by
  induction bets generalizing st with
  | nil => simp
  | cons b bs ih =>
      rw [List.foldl_cons, ih]
      by_cases hw : has_won b
      · by_cases ha : b.agency = a
        · subst ha
          simp [execute_lottery_step, hw, dictGet_dictSet_self]
        · simp [execute_lottery_step, hw, ha,
            dictGet_dictSet_other b.agency a _ _ (Ne.symm ha)]
      · simp [execute_lottery_step, hw]

/-- Claim C2: after the lottery executes from the fresh monitor state, every
winning bet's document is in its agency's winner list, every listed document
comes from a stored winning bet of that agency, and each per-agency sequence
is exactly the winning documents of that agency in the scan order of the
store. -/
theorem lottery_winners_partition (load_bets : List Bet) (has_won : Bet → Bool)
    (s : MonitorState) (hflag : s.lottery_executed = false)
    (hdict : s.winners_per_agency = []) :
    (∀ b ∈ load_bets, has_won b = true →
      b.document ∈
        get_winners_for_agency (execute_lottery load_bets has_won s).1 b.agency) ∧
    (∀ a d, d ∈ get_winners_for_agency (execute_lottery load_bets has_won s).1 a →
      ∃ b ∈ load_bets, b.agency = a ∧ b.document = d ∧ has_won b = true) ∧
    (∀ a, get_winners_for_agency (execute_lottery load_bets has_won s).1 a =
      ((load_bets.filter has_won).filter (fun b => b.agency == a)).map
        Bet.document) := by
  have hmain : ∀ a,
      get_winners_for_agency (execute_lottery load_bets has_won s).1 a =
        ((load_bets.filter has_won).filter (fun b => b.agency == a)).map
          Bet.document := by
    intro a
    simp only [execute_lottery, hflag, Bool.false_eq_true, if_false,
      get_winners_for_agency]
    rw [execute_lottery_fold_wpa]
    simp [hdict, dictGet]
  refine ⟨?_, ?_, hmain⟩
  · intro b hb hw
    rw [hmain]
    exact List.mem_map_of_mem Bet.document
      (List.mem_filter.mpr ⟨List.mem_filter.mpr ⟨hb, hw⟩, by simp⟩)
  · intro a d hd
    rw [hmain] at hd
    obtain ⟨b, hbmem, hbdoc⟩ := List.mem_map.mp hd
    have h1 := List.mem_filter.mp hbmem
    have h2 := List.mem_filter.mp h1.1
    exact ⟨b, h2.1, by simpa using h1.2, hbdoc, h2.2⟩

/-- Witness for lottery_winners_partition: two agencies, one winner. -/
theorem lottery_winners_partition_witness :
    (initMonitorState.lottery_executed = false ∧
      initMonitorState.winners_per_agency = []) ∧
    ((∀ b ∈ [(⟨1, [], [], 111, [], 7⟩ : Bet), ⟨2, [], [], 222, [], 8⟩],
        (fun x => x.document == 222) b = true →
        b.document ∈
          get_winners_for_agency
            (execute_lottery [⟨1, [], [], 111, [], 7⟩, ⟨2, [], [], 222, [], 8⟩]
              (fun x => x.document == 222) initMonitorState).1 b.agency) ∧
      (∀ a d, d ∈ get_winners_for_agency
            (execute_lottery [⟨1, [], [], 111, [], 7⟩, ⟨2, [], [], 222, [], 8⟩]
              (fun x => x.document == 222) initMonitorState).1 a →
        ∃ b ∈ [(⟨1, [], [], 111, [], 7⟩ : Bet), ⟨2, [], [], 222, [], 8⟩],
          b.agency = a ∧ b.document = d ∧ (fun x => x.document == 222) b = true) ∧
      (∀ a, get_winners_for_agency
            (execute_lottery [⟨1, [], [], 111, [], 7⟩, ⟨2, [], [], 222, [], 8⟩]
              (fun x => x.document == 222) initMonitorState).1 a =
        ((([⟨1, [], [], 111, [], 7⟩, ⟨2, [], [], 222, [], 8⟩].filter
              (fun x => x.document == 222)).filter
            (fun b => b.agency == a)).map Bet.document))) :=
  ⟨⟨by decide, by decide⟩,
    lottery_winners_partition _ _ initMonitorState (by decide) (by decide)⟩

/-! ## Session dispatch

Embeds the active (non-commented) methods of class Server in
src/server/common/server.py.  A session is identified by its peer port.
The external bet store's outcome for a batch is the storeOk parameter
(LotteryMonitor.store_bets returns a boolean and never raises); load_bets
and has_won are the same external collaborators as above.  Sent responses
are collected in a list; a None result models an uncaught exception in the
handler (bets[0] on an empty batch). -/

def STOP : Nat := 0

def CONTINUE : Nat := 1

def CONTINUE_SAFE_TO_END : Nat := 2

def AGENCY_SENDING_BETS : Nat := 10

def AGENCY_READY_FOR_LOTTERY : Nat := 20

def AGENCY_WAITING_FOR_LOTTERY : Nat := 30

def AGENCY_GOT_LOTTERY_WINNERS : Nat := 40

/-- Server.__send_winners_to_client: only when the endpoint's readiness is
WaitingForLottery and its agency id is truthy (present and nonzero) are the
winners fetched and sent and the readiness advanced to GotWinners; in every
other case nothing is sent and the state is untouched.  The second
component is the winner list carried by the InformWinners send, when one
happens. -/
def send_winners_to_client (s : MonitorState) (port : Nat) :
    MonitorState × Option (List Nat) :=
  if get_readiness s port = some AGENCY_WAITING_FOR_LOTTERY then
    match get_agency_id s port with
    | some agencyId =>
        if agencyId = 0 then (s, none)
        else
          (set_readiness s port AGENCY_GOT_LOTTERY_WINNERS,
            some (get_winners_for_agency s agencyId))
    | none => (s, none)
  else (s, none)

/-- Server.send_message_response: dispatch one received message.  Returns
the new monitor state, the responses sent to this client, and the loop
disposition, or none when the handler raises an uncaught exception
(IndexError on a RegisterBets with an empty batch). -/
def send_message_response (max_agencies : Nat) (load_bets : List Bet)
    (has_won : Bet → Bool) (port : Nat) (storeOk : Bool) (msg : Message)
    (s : MonitorState) : Option (MonitorState × List Message × Nat) :=
  match msg with
  | .registerBets bets =>
      match bets.head? with
      | none => none
      | some b =>
          let s1 := set_readiness s port AGENCY_SENDING_BETS
          let s2 := set_agency_id s1 port b.agency
          let outs := if storeOk then [Message.registerBetOk]
                      else [Message.registerBetFailed FAILURE_COULD_NOT_PROCESS_BET]
          some (s2, outs, CONTINUE)
  | .ack =>
      if has_lottery_occurred s then some (s, [], CONTINUE_SAFE_TO_END)
      else some (s, [], CONTINUE)
  | .allBetsSent =>
      let s1 := set_readiness s port AGENCY_READY_FOR_LOTTERY
      if all_agencies_ready s1 max_agencies AGENCY_SENDING_BETS then
        let s2 := (execute_lottery load_bets has_won s1).1
        let r := send_winners_to_client s2 port
        some (r.1, (r.2.map Message.informWinners).toList, CONTINUE_SAFE_TO_END)
      else some (s1, [], CONTINUE_SAFE_TO_END)
  | .requestWinners =>
      let s1 := set_readiness s port AGENCY_WAITING_FOR_LOTTERY
      if has_lottery_occurred s1 then
        let r := send_winners_to_client s1 port
        some (r.1, (r.2.map Message.informWinners).toList, CONTINUE_SAFE_TO_END)
      else some (s1, [], CONTINUE)
  | _ =>
      some (s, [Message.registerBetFailed FAILURE_UNKNOWN_MESSAGE], STOP)

/-- One receive_message outcome inside Server._handle_client_process: a
decoded message, or a raised ConnectionError / ValueError / OSError (the
decoder raises ValueError on an unknown msg_type). -/
inductive RecvEvent where
  | msg (m : Message)
  | recvError
deriving DecidableEq, Repr

/-- Server._handle_client_process read loop: while the disposition is not
STOP, receive and dispatch.  A receive error breaks the loop with nothing
sent; end of input models the peer closing the connection.  Each processed
step is recorded as (responses sent, disposition returned). -/
def handle_client_loop (max_agencies : Nat) (load_bets : List Bet)
    (has_won : Bet → Bool) (port : Nat) (storeOk : Bool) (s : MonitorState) :
    List RecvEvent → MonitorState × List (List Message × Nat)
  | [] => (s, [])
  | .recvError :: _ => (s, [])
  | .msg m :: rest =>
      match send_message_response max_agencies load_bets has_won port storeOk m s with
      | none => (s, [])
      | some (s1, outs, disp) =>
          if disp = STOP then (s1, [(outs, disp)])
          else
            let r := handle_client_loop max_agencies load_bets has_won port storeOk
              s1 rest
            (r.1, (outs, disp) :: r.2)

/-- Counterexample to claim C3: a RequestWinners received while the lottery
has not executed produces no InformWinners and returns the Continue
disposition — the handler does not block on the barrier and leaves the
requester without any pending winners delivery. -/
theorem request_winners_no_wait_counterexample :
    (send_message_response 2 [] (fun _ => false) 5 true Message.requestWinners
        initMonitorState).map (fun r => (r.2.1, r.2.2)) = some ([], CONTINUE) ∧
    CONTINUE ≠ CONTINUE_SAFE_TO_END :=
  ⟨rfl, by decide⟩

/-- Claim C3 (amended): when a session receives RequestWinners while the
lottery has not executed, the handler sets the endpoint's readiness to
WaitingForLottery and returns Continue, sending nothing and never calling
wait_for_lottery_completion; winners can only be delivered by a later
dispatch that reaches the send-winners step. -/
theorem request_winners_before_lottery (max_agencies : Nat) (load_bets : List Bet)
    (has_won : Bet → Bool) (port : Nat) (storeOk : Bool) (s : MonitorState)
    (h : s.lottery_executed = false) :
    send_message_response max_agencies load_bets has_won port storeOk
        Message.requestWinners s =
      some (set_readiness s port AGENCY_WAITING_FOR_LOTTERY, [], CONTINUE) := by
  simp [send_message_response, has_lottery_occurred, set_readiness, h]

/-- Witness for request_winners_before_lottery on the fresh monitor. -/
theorem request_winners_before_lottery_witness :
    initMonitorState.lottery_executed = false ∧
    send_message_response 2 [] (fun _ => true) 5 true Message.requestWinners
        initMonitorState =
      some (set_readiness initMonitorState 5 AGENCY_WAITING_FOR_LOTTERY, [],
        CONTINUE) :=
  ⟨by decide, request_winners_before_lottery 2 [] _ 5 true initMonitorState
    (by decide)⟩

/-- Counterexample to claim C4: after AllBetsSent moves an endpoint's
readiness to ReadyForLottery (20), a later RegisterBets on the same endpoint
overwrites it with SendingBets (10), a strictly earlier state in the
ordering. -/
theorem readiness_backward_counterexample :
    ((send_message_response 2 [] (fun _ => false) 5 true Message.allBetsSent
        initMonitorState).bind fun r1 =>
      (send_message_response 2 [] (fun _ => false) 5 true
          (Message.registerBets [⟨1, [], [], 111, 0, 7⟩]) r1.1).map fun r2 =>
        (get_readiness r1.1 5, get_readiness r2.1 5)) =
      some (some AGENCY_READY_FOR_LOTTERY, some AGENCY_SENDING_BETS) ∧
    AGENCY_SENDING_BETS < AGENCY_READY_FOR_LOTTERY :=
  ⟨rfl, by decide⟩

/-- Claim C4 (amended): readiness writes in the dispatch are unconditional
overwrites — a RegisterBets always leaves the endpoint's readiness at
SendingBets, whatever later-ordered state it held before, so transitions
can move backward. -/
theorem register_bets_sets_sending (max_agencies : Nat) (load_bets : List Bet)
    (has_won : Bet → Bool) (port : Nat) (storeOk : Bool) (s : MonitorState)
    (b : StandardBet) (bs : List StandardBet) :
    (send_message_response max_agencies load_bets has_won port storeOk
        (Message.registerBets (b :: bs)) s).map (fun r => get_readiness r.1 port) =
      some (some AGENCY_SENDING_BETS) := by
  simp [send_message_response, get_readiness, set_agency_id, set_readiness,
    dictGet_dictSet_self]

/-- Counterexample to claim C8: two RegisterBets batches on the same
endpoint whose first bets carry agency ids 1 and then 2 leave the binding
at 2 — the original binding is rewritten, not preserved. -/
theorem agency_rebind_counterexample :
    ((send_message_response 2 [] (fun _ => false) 5 true
        (Message.registerBets [⟨1, [], [], 111, 0, 7⟩]) initMonitorState).bind
      fun r1 =>
        (send_message_response 2 [] (fun _ => false) 5 true
            (Message.registerBets [⟨2, [], [], 222, 0, 8⟩]) r1.1).map fun r2 =>
          (get_agency_id r1.1 5, get_agency_id r2.1 5)) =
      some (some 1, some 2) ∧ (2 : Nat) ≠ 1 :=
  ⟨rfl, by decide⟩

/-- Claim C8 (amended): the endpoint-to-agency binding is written on every
RegisterBets — after any RegisterBets the binding equals the agency id of
that batch's first bet, so the last batch wins rather than the first. -/
theorem register_bets_rebinds_agency (max_agencies : Nat) (load_bets : List Bet)
    (has_won : Bet → Bool) (port : Nat) (storeOk : Bool) (s : MonitorState)
    (b : StandardBet) (bs : List StandardBet) :
    (send_message_response max_agencies load_bets has_won port storeOk
        (Message.registerBets (b :: bs)) s).map (fun r => get_agency_id r.1 port) =
      some (some b.agency) := by
  simp [send_message_response, get_agency_id, set_agency_id, set_readiness,
    dictGet_dictSet_self]

/-- Counterexample to claim C7: the read loop runs while the disposition is
not STOP, so a step that returns SafeToEnd (here AllBetsSent) is followed by
a further message read (here an Ack, processed as the second step). -/
theorem safe_to_end_continues_counterexample :
    (handle_client_loop 2 [] (fun _ => false) 5 true initMonitorState
        [RecvEvent.msg Message.allBetsSent, RecvEvent.msg Message.ack]).2 =
      [([], CONTINUE_SAFE_TO_END), ([], CONTINUE)] :=
  rfl

/-- Claim C7 (amended): a SafeToEnd disposition does not terminate the read
loop; after such a step the session keeps reading, and the loop ends only
on a STOP disposition, a receive error, or the end of input. -/
theorem handle_client_loop_continues_after_safe_to_end (max_agencies : Nat)
    (load_bets : List Bet) (has_won : Bet → Bool) (port : Nat) (storeOk : Bool)
    (s : MonitorState) (m : Message) (rest : List RecvEvent) (s1 : MonitorState)
    (outs : List Message)
    (h : send_message_response max_agencies load_bets has_won port storeOk m s =
      some (s1, outs, CONTINUE_SAFE_TO_END)) :
    handle_client_loop max_agencies load_bets has_won port storeOk s
        (RecvEvent.msg m :: rest) =
      ((handle_client_loop max_agencies load_bets has_won port storeOk s1 rest).1,
        (outs, CONTINUE_SAFE_TO_END) ::
          (handle_client_loop max_agencies load_bets has_won port storeOk s1
            rest).2) := by
  simp [handle_client_loop, h, CONTINUE_SAFE_TO_END, STOP]

/-- Witness for handle_client_loop_continues_after_safe_to_end on an
AllBetsSent step from the fresh monitor. -/
theorem handle_client_loop_continues_after_safe_to_end_witness :
    (send_message_response 2 [] (fun _ => false) 5 true Message.allBetsSent
        initMonitorState =
      some (set_readiness initMonitorState 5 AGENCY_READY_FOR_LOTTERY, [],
        CONTINUE_SAFE_TO_END)) ∧
    handle_client_loop 2 [] (fun _ => false) 5 true initMonitorState
        [RecvEvent.msg Message.allBetsSent] =
      ((handle_client_loop 2 [] (fun _ => false) 5 true
          (set_readiness initMonitorState 5 AGENCY_READY_FOR_LOTTERY) []).1,
        ([], CONTINUE_SAFE_TO_END) ::
          (handle_client_loop 2 [] (fun _ => false) 5 true
            (set_readiness initMonitorState 5 AGENCY_READY_FOR_LOTTERY) []).2) :=
  ⟨by decide, handle_client_loop_continues_after_safe_to_end 2 [] _ 5 true
    initMonitorState Message.allBetsSent [] _ [] (by decide)⟩

/-- Counterexample to claim C6: a frame whose msg_type is 99 fails in the
decoder (the source raises ValueError), the handler's except branch breaks
the loop, and no RegisterBetsFailed is sent to the client. -/
theorem unknown_msg_type_counterexample :
    decodeMessage (encU16 99) = none ∧
    handle_client_loop 2 [] (fun _ => false) 5 true initMonitorState
        [RecvEvent.recvError] = (initMonitorState, []) :=
  ⟨rfl, rfl⟩

/-- Claim C6 (amended): a wire-level unknown msg_type fails during decode,
and the session then terminates without sending anything; the
RegisterBetsFailed(UNKNOWN_MESSAGE)-then-STOP path fires only for decodable
messages the dispatch does not handle (RegisterBetsOk, RegisterBetsFailed,
InformWinners arriving at the server). -/
theorem unknown_message_behavior (t : Nat) (rest : List Nat)
    (h1 : t < 2 ^ 16) (h2 : t ≠ 1) (h3 : t ≠ 2) (h4 : t ≠ 3) (h5 : t ≠ 4)
    (h6 : t ≠ 5) (h7 : t ≠ 6) (h8 : t ≠ 7) :
    decodeMessage (encU16 t ++ rest) = none ∧
    (∀ (max_agencies : Nat) (load_bets : List Bet) (has_won : Bet → Bool)
        (port : Nat) (storeOk : Bool) (s : MonitorState) (evs : List RecvEvent),
      handle_client_loop max_agencies load_bets has_won port storeOk s
        (RecvEvent.recvError :: evs) = (s, [])) ∧
    (∀ (max_agencies : Nat) (load_bets : List Bet) (has_won : Bet → Bool)
        (port : Nat) (storeOk : Bool) (s : MonitorState) (c : Nat) (ws : List Nat),
      send_message_response max_agencies load_bets has_won port storeOk
          Message.registerBetOk s =
        some (s, [Message.registerBetFailed FAILURE_UNKNOWN_MESSAGE], STOP) ∧
      send_message_response max_agencies load_bets has_won port storeOk
          (Message.registerBetFailed c) s =
        some (s, [Message.registerBetFailed FAILURE_UNKNOWN_MESSAGE], STOP) ∧
      send_message_response max_agencies load_bets has_won port storeOk
          (Message.informWinners ws) s =
        some (s, [Message.registerBetFailed FAILURE_UNKNOWN_MESSAGE], STOP)) := by
  refine ⟨?_, ?_, ?_⟩
  · simp only [decodeMessage, readNat_encU16 _ _ h1, Option.some_bind]
    simp [MSG_TYPE_REGISTER_BETS, MSG_TYPE_REGISTER_BET_OK,
      MSG_TYPE_REGISTER_BET_FAILED, MSG_TYPE_ACK, MSG_TYPE_ALL_BETS_SENT,
      MSG_TYPE_REQUEST_WINNERS, MSG_TYPE_INFORM_WINNERS,
      h2, h3, h4, h5, h6, h7, h8]
  · intro max_agencies load_bets has_won port storeOk s evs
    rfl
  · intro max_agencies load_bets has_won port storeOk s c ws
    exact ⟨rfl, rfl, rfl⟩

/-- Witness for unknown_message_behavior at msg_type 99. -/
theorem unknown_message_behavior_witness :
    ((99 : Nat) < 2 ^ 16 ∧ (99 : Nat) ≠ 1 ∧ (99 : Nat) ≠ 2 ∧ (99 : Nat) ≠ 3 ∧
      (99 : Nat) ≠ 4 ∧ (99 : Nat) ≠ 5 ∧ (99 : Nat) ≠ 6 ∧ (99 : Nat) ≠ 7) ∧
    decodeMessage (encU16 99 ++ []) = none :=
  ⟨by decide,
    (unknown_message_behavior 99 [] (by decide) (by decide) (by decide)
      (by decide) (by decide) (by decide) (by decide) (by decide)).1⟩

/-- Claim C10: when an endpoint's recorded agency id is absent or 0 (both
falsy in the Python guard), the send-winners step sends no InformWinners
and leaves the monitor state — in particular the endpoint's readiness —
unchanged, even when the readiness is WaitingForLottery and the lottery has
completed; such an agency can never be sent its winners. -/
theorem send_winners_skips_falsy_agency (s : MonitorState) (port : Nat)
    (h : get_agency_id s port = none ∨ get_agency_id s port = some 0) :
    send_winners_to_client s port = (s, none) := by
  by_cases hr : get_readiness s port = some AGENCY_WAITING_FOR_LOTTERY
  · rcases h with h | h <;> simp [send_winners_to_client, hr, h]
  · simp [send_winners_to_client, hr]

/-- Witness for send_winners_skips_falsy_agency: readiness is
WaitingForLottery, the lottery has completed and agency 2 has winners, but
the endpoint's recorded agency id is 0, so nothing is sent. -/
theorem send_winners_skips_falsy_agency_witness :
    (get_agency_id ⟨[(5, 30)], [(5, 0)], [(2, 222)], [(2, [222])], true, true⟩ 5 =
        none ∨
      get_agency_id ⟨[(5, 30)], [(5, 0)], [(2, 222)], [(2, [222])], true, true⟩ 5 =
        some 0) ∧
    send_winners_to_client
        ⟨[(5, 30)], [(5, 0)], [(2, 222)], [(2, [222])], true, true⟩ 5 =
      (⟨[(5, 30)], [(5, 0)], [(2, 222)], [(2, [222])], true, true⟩, none) :=
  ⟨Or.inr (by decide),
    send_winners_skips_falsy_agency _ 5 (Or.inr (by decide))⟩

/-! ## Configuration and process exit status

Embeds initialize_config and main of src/server/main.py.  The environment
and the DEFAULT section of config.ini are partial maps from key to raw
string value; Python int() is represented by String.toInt?. -/

/-- Parsed configuration dictionary of initialize_config. -/
structure ConfigParams where
  port : Int
  listen_backlog : Int
  logging_level : String
  number_of_agencies : Int
deriving DecidableEq, Repr

/-- The two exception kinds initialize_config re-raises. -/
inductive ConfigError where
  | keyError (k : String)
  | valueError (k : String)
deriving DecidableEq, Repr

/-- Key resolution as main.py performs it: ConfigParser(os.environ) folds
the environment into the parser defaults, so a key resolves to the
environment value when present, else to the config-file DEFAULT value;
absent in both raises KeyError. -/
def cfgLookup (env file : String → Option String) (k : String) : Option String :=
  (env k).orElse fun _ => file k

/-- initialize_config: resolve and parse SERVER_PORT, SERVER_LISTEN_BACKLOG,
LOGGING_LEVEL, then NUM_AGENCIES (environment only, defaulting to the
already-parsed listen_backlog).  A missing key raises KeyError, an
unparsable value raises ValueError; both propagate to main. -/
def build_config (env file : String → Option String) :
    Except ConfigError ConfigParams :=
  match cfgLookup env file "SERVER_PORT" with
  | none => .error (.keyError "SERVER_PORT")
  | some v1 =>
    match v1.toInt? with
    | none => .error (.valueError "SERVER_PORT")
    | some port =>
      match cfgLookup env file "SERVER_LISTEN_BACKLOG" with
      | none => .error (.keyError "SERVER_LISTEN_BACKLOG")
      | some v2 =>
        match v2.toInt? with
        | none => .error (.valueError "SERVER_LISTEN_BACKLOG")
        | some backlog =>
          match cfgLookup env file "LOGGING_LEVEL" with
          | none => .error (.keyError "LOGGING_LEVEL")
          | some lvl =>
            match env "NUM_AGENCIES" with
            | some v3 =>
              match v3.toInt? with
              | none => .error (.valueError "NUM_AGENCIES")
              | some n => .ok ⟨port, backlog, lvl, n⟩
            | none => .ok ⟨port, backlog, lvl, backlog⟩

/-- Exit status of the process running main(): the try block wraps
configuration, server construction (where binding the listening socket may
raise OSError, modelled by bindOk = false) and the serve loop, and the
except branch only logs the error and returns — main never calls sys.exit
and never re-raises, so the interpreter exits with status 0 on every path. -/
def main_exit_code (env file : String → Option String) (bindOk : Bool) : Nat :=
  match build_config env file with
  | .error _ => 0
  | .ok _ => if bindOk then 0 else 0

/-- Claim C9 (refuted by the code): with an empty environment and no config
file, startup fails with KeyError on SERVER_PORT, yet the process exit
status is 0 — and the exit status is 0 for every configuration and bind
outcome — because main catches, logs and swallows every exception instead
of exiting non-zero as its own docstring promises. -/
theorem missing_config_exits_zero :
    build_config (fun _ => none) (fun _ => none) =
      Except.error (ConfigError.keyError "SERVER_PORT") ∧
    main_exit_code (fun _ => none) (fun _ => none) true = 0 ∧
    (∀ (env file : String → Option String) (bindOk : Bool),
      main_exit_code env file bindOk = 0) := by
  refine ⟨rfl, rfl, ?_⟩
  intro env file bindOk
  unfold main_exit_code
  cases build_config env file <;> simp
